import Mathlib

/-!
Shallow embedding of src/classify_cloudinary.py (a CLIP-based Cloudinary
photo classifier) and proofs about its specification.

External collaborators (the CLIP model, the Cloudinary listing API, the
network, numpy/sklearn numerics and the datetime library) are modelled as
explicit parameters: a similarity score function stands for the CLIP
cosine similarities, an api function stands for the paginated listing
endpoint, a download oracle stands for requests.get plus PIL decoding,
a parse function stands for datetime.strptime followed by isoformat, and
a cluster assignment list stands for the k-means output.  Every piece of
control flow of the repository itself (top-k selection, tag filtering,
palette weight computation, pagination, the per-asset loop, the merge
with the durable store in the entry point) is translated directly from
the source.
-/

set_option maxHeartbeats 4000000
set_option maxRecDepth 10000

namespace ClassifyCloudinary

/-- ASCII lowercasing, as python str.lower acts on the tag strings and the
command line argument used in this program (all ASCII). -/
def pyLower (s : String) : String := String.mk (s.data.map Char.toLower)

/-! ### Label sets and tagging settings (lines 53-170 of the source) -/

def TAGS_PER_IMAGE : Nat := 5
def STYLE_TAGS_PER_IMAGE : Nat := 3
def LIGHTING_TAGS_PER_IMAGE : Nat := 2
def COLOR_TAGS_PER_IMAGE : Nat := 2

def CONTENT_LABELS : List String := [
  "mountain", "beach", "ocean", "forest", "desert", "lake",
  "river", "waterfall", "sunset", "sunrise", "clouds", "sky",
  "snow", "ice", "volcano", "canyon", "valley", "cliff",
  "rock formation", "cave", "field", "meadow", "hills", "countryside",
  "coast", "island", "rainforest", "jungle", "savanna", "tundra",
  "city", "cityscape", "skyline", "building", "skyscraper", "architecture",
  "street", "road", "bridge", "tunnel", "alley", "plaza",
  "square", "park", "monument", "statue", "tower", "church",
  "temple", "mosque", "castle", "house", "home", "apartment",
  "downtown", "suburb", "industrial area", "construction", "ruins", "ancient architecture",
  "modern architecture", "dog", "cat", "bird", "horse", "cow",
  "sheep", "elephant", "lion", "tiger", "bear", "wolf",
  "deer", "rabbit", "squirrel", "fish", "whale", "dolphin",
  "shark", "butterfly", "insect", "spider", "eagle", "owl",
  "penguin", "monkey", "gorilla", "giraffe", "zebra", "wildlife",
  "pet", "farm animal", "portrait", "person", "people", "face",
  "child", "baby", "teenager", "adult", "elderly person", "family",
  "couple", "group of people", "crowd", "selfie", "profile", "close-up portrait",
  "candid", "model", "fashion model", "food", "meal", "drink",
  "coffee", "wine", "fruit", "vegetables", "dessert", "flower",
  "bouquet", "plant", "tree", "garden", "book", "camera",
  "phone", "computer", "car", "bicycle", "motorcycle", "airplane",
  "boat", "ship", "furniture", "interior", "room", "kitchen",
  "bedroom", "living room", "concert", "festival", "party", "celebration",
  "wedding", "sports", "game", "performance", "dance", "music",
  "art", "painting", "sculpture", "exhibition", "travel", "vacation",
  "adventure", "hiking", "camping", "skiing", "surfing", "swimming",
  "running", "yoga", "meditation", "work", "office", "meeting",
  "rain", "storm", "lightning", "fog", "mist", "rainbow",
  "winter", "spring", "summer", "autumn", "fall colors", "cherry blossoms",
  "snow scene", "pattern", "texture", "abstract", "geometric", "symmetry",
  "reflection", "shadow", "silhouette", "motion blur", "bokeh", "depth of field",
  "minimalist", "negative space", "black and white", "monochrome", "colorful"]

def STYLE_LABELS : List String := [
  "cinematic", "documentary", "street photography", "landscape photography", "portrait photography", "wildlife photography",
  "macro photography", "aerial photography", "underwater photography", "night photography", "astrophotography", "long exposure",
  "time lapse", "HDR", "panorama", "vintage", "retro", "film photography",
  "polaroid", "analog", "grainy", "clean", "crisp", "sharp",
  "soft focus", "dreamy", "ethereal", "moody", "dramatic", "minimalist",
  "maximalist", "surreal", "abstract", "high contrast", "low contrast", "desaturated",
  "oversaturated", "warm tones", "cool tones", "sepia", "black and white", "color grading",
  "film grain", "vignette", "tilt-shift", "lens flare", "impressionist style", "expressionist style",
  "pop art style", "minimalist style", "bauhaus style", "art deco style", "modernist", "digital painting",
  "photo manipulation", "composite", "CGI", "anime style", "cartoon style", "illustration style"]

def LIGHTING_LABELS : List String := [
  "golden hour", "blue hour", "sunrise light", "sunset light", "midday sun", "overcast light",
  "soft light", "harsh light", "dappled light", "backlight", "backlit", "rim light",
  "silhouette lighting", "studio lighting", "flash photography", "neon lighting", "street lights", "candlelight",
  "firelight", "stage lighting", "spotlight", "bright", "dark", "low light",
  "high key", "low key", "dramatic lighting", "flat lighting", "even lighting", "moody lighting",
  "atmospheric lighting", "front lit", "side lit", "top lit", "bottom lit", "chiaroscuro",
  "Rembrandt lighting", "natural window light", "diffused light"]

def COLOR_LABELS : List String := [
  "warm colors", "cool colors", "pastel colors", "vibrant colors", "muted colors", "earth tones",
  "jewel tones", "neon colors", "monochromatic", "red dominant", "blue dominant", "green dominant",
  "yellow dominant", "orange dominant", "purple dominant", "pink dominant", "brown dominant", "gray dominant",
  "black dominant", "white dominant", "high saturation", "low saturation", "desaturated", "black and white",
  "grayscale", "sepia tone", "duotone", "triadic colors", "complementary colors", "analogous colors",
  "colorful", "multicolored"]

/-- A taxonomy as in the spec data model: name, ordered label list, top-k count. -/
structure LabelTaxonomy where
  name : String
  labels : List String
  top_k : Nat
deriving DecidableEq

/-- The four taxonomy instances the program classifies against, with the
top-k counts from the tagging settings. -/
def taxonomies : List LabelTaxonomy :=
  [⟨"content", CONTENT_LABELS, TAGS_PER_IMAGE⟩,
   ⟨"style", STYLE_LABELS, STYLE_TAGS_PER_IMAGE⟩,
   ⟨"lighting", LIGHTING_LABELS, LIGHTING_TAGS_PER_IMAGE⟩,
   ⟨"color", COLOR_LABELS, COLOR_TAGS_PER_IMAGE⟩]

/-! ### CLIP tagging, get_clip_tags (lines 274-311) -/

/-- Descending order on index positions keyed by a score, ties resolved in
favour of the lower index (a stable selection order).  torch topk leaves
the order among exactly tied scores unspecified; the claims proved below
do not depend on the tie order, and this embedding fixes the stable one. -/
def descRel {α : Type} [LinearOrder α] (key : Nat → α) (i j : Nat) : Prop :=
  key j < key i ∨ (key j = key i ∧ i ≤ j)

instance {α : Type} [LinearOrder α] (key : Nat → α) : DecidableRel (descRel key) := by
  intro i j
  unfold descRel
  exact inferInstance

instance {α : Type} [LinearOrder α] (key : Nat → α) : IsTotal Nat (descRel key) := ⟨by
  intro i j
  rcases lt_trichotomy (key i) (key j) with h | h | h
  · exact Or.inr (Or.inl h)
  · rcases Nat.le_total i j with hij | hij
    · exact Or.inl (Or.inr ⟨h.symm, hij⟩)
    · exact Or.inr (Or.inr ⟨h, hij⟩)
  · exact Or.inl (Or.inl h)⟩

instance {α : Type} [LinearOrder α] (key : Nat → α) : IsTrans Nat (descRel key) := ⟨by
  intro a b c hab hbc
  rcases hab with hab | ⟨hab1, hab2⟩
  · rcases hbc with hbc | ⟨hbc1, hbc2⟩
    · exact Or.inl (lt_trans hbc hab)
    · exact Or.inl (by rw [hbc1]; exact hab)
  · rcases hbc with hbc | ⟨hbc1, hbc2⟩
    · exact Or.inl (by rw [hab1] at hbc; exact hbc)
    · exact Or.inr ⟨by rw [hbc1, hab1], le_trans hab2 hbc2⟩⟩

/-- Index positions of the top k scores among positions 0..n-1, highest
score first, as produced by values, indices = similarity.topk(top_k). -/
def topkIndices {α : Type} [LinearOrder α] (score : Nat → α) (n k : Nat) : List Nat :=
  (List.insertionSort (descRel score) (List.range n)).take k

/-- get_clip_tags: scores every label against the image and returns the
top_k best label strings.  The CLIP similarity computation is external:
the parameter score gives the similarity of each label position.  The
parameter fail models the except branch (any model or preprocessing
error returns the empty list).  When top_k exceeds the number of labels,
similarity.topk raises, the except branch catches it, and the empty list
is returned as well. -/
def get_clip_tags (fail : Bool) (score : Nat → ℚ) (labels : List String) (top_k : Nat) :
    List String :=
  if fail then []
  else if labels.length < top_k then []
  else (topkIndices score labels.length top_k).map (fun i => labels.getD i "")

/-! ### Grayscale tag filtering, filter_bw_tags (lines 398-426) -/

def SATURATION_THRESHOLD : ℚ := 15 / 100

def bw_keywords : List String :=
  ["black and white", "grayscale", "monochrome", "sepia tone", "duotone"]

/-- filter_bw_tags: if the measured saturation exceeds the threshold, drop
every tag whose lowercase form is one of the achromatic keywords; if that
removes every tag, return the original list; at or below the threshold
return the input unchanged. -/
def filter_bw_tags (color_tags : List String) (saturation : ℚ) : List String :=
  if saturation > SATURATION_THRESHOLD then
    let filtered_tags := color_tags.filter (fun tag => !(bw_keywords.contains (pyLower tag)))
    if filtered_tags.isEmpty then color_tags else filtered_tags
  else color_tags

/-- A tag matches the fixed achromatic keyword set case insensitively. -/
def isAchromatic (tag : String) : Prop := pyLower tag ∈ bw_keywords

instance : DecidablePred isAchromatic := fun tag => by
  unfold isAchromatic
  exact inferInstance

/-! ### Color palette, get_color_palette (lines 354-396) -/

/-- One palette entry: integer RGB plus a fractional weight. -/
structure PaletteEntry where
  r : ℤ
  g : ℤ
  b : ℤ
  weight : ℚ
deriving DecidableEq

/-- The conservative default returned when color analysis fails: a single
mid gray entry carrying the whole weight. -/
def default_palette : List PaletteEntry := [⟨128, 128, 128, 1⟩]

/-- np.bincount on a list of nonnegative integers: occurrence counts of
every value from 0 up to the maximum present. -/
def bincount (xs : List Nat) : List Nat :=
  if xs = [] then []
  else (List.range (xs.foldr max 0 + 1)).map (fun v => xs.count v)

/-- The successful body of get_color_palette: counts = np.bincount of the
cluster assignment, order = np.argsort of negated counts (descending,
embedded with the stable tie order, which no claim depends on), one
entry per counted cluster with its truncated centroid color and weight
counts[i] / total pixel count. -/
def palette_main (centers : List (ℚ × ℚ × ℚ)) (assign : List Nat) : List PaletteEntry :=
  (List.insertionSort (descRel (fun i => (bincount assign).getD i 0))
      (List.range (bincount assign).length)).map
    (fun i =>
      ⟨(centers.getD i (0, 0, 0)).1.floor,
       (centers.getD i (0, 0, 0)).2.1.floor,
       (centers.getD i (0, 0, 0)).2.2.floor,
       ((bincount assign).getD i 0 : ℚ) / (assign.length : ℚ)⟩)

/-- get_color_palette: the k-means clustering is external, centers
stands for kmeans.cluster_centers_ and assign for kmeans.labels_ (the
cluster index of every sampled pixel).  fail models the except branch:
any numpy or sklearn error yields the default gray palette, and an empty
pixel list also makes kmeans.fit raise. -/
def get_color_palette (fail : Bool) (centers : List (ℚ × ℚ × ℚ)) (assign : List Nat) :
    List PaletteEntry :=
  if fail then default_palette
  else if assign = [] then default_palette
  else palette_main centers assign

/-! ### Saturation, calculate_saturation (lines 329-352) -/

/-- The decoded image as the downstream stages observe it.  All pixel
level and model level quantities are fields because they are produced by
external collaborators: exif is the embedded metadata dictionary (none
when _getexif returns None or raises), clipFail and score describe the
CLIP calls per taxonomy position, satFail and satVal the saturation
measurement, palFail, centers and assign the k-means palette inputs. -/
structure DecodedImage where
  exif : Option (List (String × String))
  clipFail : Nat → Bool
  score : Nat → Nat → ℚ
  satFail : Bool
  satVal : ℚ
  palFail : Bool
  centers : List (ℚ × ℚ × ℚ)
  assign : List Nat

/-- calculate_saturation: the mean HSV saturation of the thumbnail, an
external numeric computation; on any error the code defaults to 0.5,
assuming color. -/
def calculate_saturation (img : DecodedImage) : ℚ :=
  if img.satFail then 1 / 2 else img.satVal

/-! ### Photo date, get_photo_date (lines 428-468) -/

/-- get_photo_date: walk the EXIF dictionary for DateTimeOriginal, then
for DateTime; parse the matched value with the fixed format, returning
the raw value when parsing fails; None when neither tag is present or the
EXIF read fails.  parseDT stands for datetime.strptime with format
Y:m:d H:M:S followed by isoformat; it returns none exactly when strptime
raises. -/
def get_photo_date (parseDT : String → Option String) :
    Option (List (String × String)) → Option String
  | none => none
  | some entries =>
    match entries.find? (fun e => e.1 == "DateTimeOriginal") with
    | some e => some ((parseDT e.2).getD e.2)
    | none =>
      match entries.find? (fun e => e.1 == "DateTime") with
      | some e => some ((parseDT e.2).getD e.2)
      | none => none

/-- The photo date as the per asset loop resolves it (lines 507-510 and
592-594): the EXIF date when get_photo_date found one, otherwise the
listing provided upload date. -/
def resolved_photo_date (parseDT : String → Option String)
    (exif : Option (List (String × String))) (created_at : String) : String :=
  (get_photo_date parseDT exif).getD created_at

/-! ### Cloudinary listing, fetch_all_images (lines 182-232) and
fetch_images_from_folder (lines 654-692, a verbatim single folder copy) -/

/-- One resource as returned by the listing API.  created_at is optional
because the final projection in both fetch functions reads it with
r.get with an empty string default. -/
structure Resource where
  public_id : String
  secure_url : String
  created_at : Option String
deriving DecidableEq

/-- One page of the listing response. -/
structure Page where
  resources : List Resource
  next_cursor : Option String

/-- The paginated listing endpoint.  An error value stands for any
exception raised by cloudinary.api.resources_by_asset_folder. -/
abbrev Api : Type := String → Option String → Except Unit Page

/-- The pagination loop for one folder: call the endpoint with the
current cursor, append the returned resources, follow next_cursor until
it is absent; on a request error stop at once keeping what was gathered.
fuel bounds the number of requests (the python loop is unbounded). -/
def listGo (api : Api) (folder : String) : Nat → Option String → List Resource → List Resource
  | 0, _, acc => acc
  | fuel + 1, cursor, acc =>
    match api folder cursor with
    | .error _ => acc
    | .ok page =>
      match page.next_cursor with
      | none => acc ++ page.resources
      | some c => listGo api folder fuel (some c) (acc ++ page.resources)

/-- The record built by the final list comprehension of both fetch
functions: public_id, secure_url, the folder tag that was stamped on the
resource while it was listed, and created_at with empty string default. -/
structure Item where
  public_id : String
  url : String
  folder : String
  created_at : String
deriving DecidableEq

def toItem (fr : String × Resource) : Item :=
  ⟨fr.2.public_id, fr.2.secure_url, fr.1, fr.2.created_at.getD ""⟩

/-- The folders the full run iterates over. -/
def folders : List String := ["portfolio", "rugby"]

/-- All resources of the full run, each stamped with the folder it was
listed from, accumulated sequentially across the two folders. -/
def fetch_all_raw (api : Api) (fuel : Nat) : List (String × Resource) :=
  folders.foldl (fun acc folder => acc ++ (listGo api folder fuel none []).map (fun r => (folder, r))) []

/-- fetch_all_images: the full run listing, projected to item records. -/
def fetch_all_images (api : Api) (fuel : Nat) : List Item :=
  (fetch_all_raw api fuel).map toItem

/-- fetch_images_from_folder: the single folder listing of the
incremental entry path, projected to item records. -/
def fetch_folder (api : Api) (folder : String) (fuel : Nat) : List Item :=
  ((listGo api folder fuel none []).map (fun r => (folder, r))).map toItem

/-! ### Per asset processing (lines 499-545 and 578-625; the two loops
are verbatim copies of each other) -/

/-- The per asset result dictionary stored under the public id. -/
structure TagResult where
  url : String
  folder : String
  created_at : String
  content : List String
  style : List String
  lighting : List String
  colors : List String
  color_palette : List PaletteEntry
  all_tags : List String
deriving DecidableEq

/-- The body of the per asset loop after a successful download: photo
date with listing fallback, saturation, the four CLIP calls, the
grayscale filter on the color tags only, the palette, and the combined
tag list in the fixed order content, style, lighting, filtered colors. -/
def process_one (parseDT : String → Option String) (img : DecodedImage) (it : Item) :
    TagResult :=
  let photo_date := resolved_photo_date parseDT img.exif it.created_at
  let saturation := calculate_saturation img
  let content_tags := get_clip_tags (img.clipFail 0) (img.score 0) CONTENT_LABELS TAGS_PER_IMAGE
  let style_tags := get_clip_tags (img.clipFail 1) (img.score 1) STYLE_LABELS STYLE_TAGS_PER_IMAGE
  let lighting_tags := get_clip_tags (img.clipFail 2) (img.score 2) LIGHTING_LABELS LIGHTING_TAGS_PER_IMAGE
  let color_tags_raw := get_clip_tags (img.clipFail 3) (img.score 3) COLOR_LABELS COLOR_TAGS_PER_IMAGE
  let color_tags := filter_bw_tags color_tags_raw saturation
  let color_palette := get_color_palette img.palFail img.centers img.assign
  ⟨it.url, it.folder, photo_date, content_tags, style_tags, lighting_tags, color_tags,
   color_palette, content_tags ++ style_tags ++ lighting_tags ++ color_tags⟩

/-- The results dictionary: a python dict keyed by public id, kept as an
association list in insertion order. -/
abbrev Store : Type := List (String × TagResult)

/-- Lookup of a key in an association list, first binding wins (python
dict access d[k] on the mapping the list represents). -/
def lookupKey {β : Type} (d : List (String × β)) (k : String) : Option β :=
  match d with
  | [] => none
  | e :: t => if e.1 = k then some e.2 else lookupKey t k

/-- Assignment d[k] = v on a python dict: overwrite in place when the key
is present (keeping its position), append otherwise. -/
def dictInsert (d : Store) (k : String) (v : TagResult) : Store :=
  if (lookupKey d k).isSome then d.map (fun e => if e.1 = k then (k, v) else e)
  else d ++ [(k, v)]

/-- The per asset loop shared by process_all_images and
process_images_only: download each item, skip it when the download
fails, otherwise process it and store the result under its public id.
Every stage invoked on a downloaded image is total here, mirroring the
source where each stage catches its own exceptions; the enclosing
per asset try block therefore never sees an uncaught exception in this
model. -/
def process_loop (parseDT : String → Option String)
    (download : String → Option DecodedImage) : List Item → Store → Store
  | [], acc => acc
  | it :: rest, acc =>
    match download it.url with
    | none => process_loop parseDT download rest acc
    | some img => process_loop parseDT download rest (dictInsert acc it.public_id (process_one parseDT img it))

/-- process_images_only: run the loop over the given items starting from
an empty results dictionary. -/
def processImages (parseDT : String → Option String)
    (download : String → Option DecodedImage) (items : List Item) : Store :=
  process_loop parseDT download items []

/-! ### Entry point (lines 636-718) -/

/-- The durable store file tags.json as the entry point can find it:
missing, present but not valid JSON, or a parsed mapping. -/
inductive FileState where
  | absent
  | corrupt
  | stored (s : Store)
deriving DecidableEq

/-- How a run can fail: usage stands for sys.exit(1) on an unrecognized
folder argument, exn for an uncaught exception. -/
inductive RunErr where
  | usage
  | exn
deriving DecidableEq

/-- Loading existing tags in the incremental path (lines 694-699): a
missing file leaves the empty dict, a parseable file is loaded, and a
file that json.load cannot parse raises an exception that nothing
catches. -/
def load_existing (file : FileState) : Except RunErr Store :=
  match file with
  | .absent => .ok []
  | .corrupt => .error .exn
  | .stored s => .ok s

/-- The python dict merge that builds final_results from existing_tags
and results: start from the first dict and assign every binding of the
second dict over it in order. -/
def dictUnion (a b : Store) : Store :=
  b.foldl (fun d e => dictInsert d e.1 e.2) a

/-- The external world of one run. -/
structure Env where
  api : Api
  download : String → Option DecodedImage
  parseDT : String → Option String
  fuel : Nat

/-- The entry point: with a folder argument (lowercased) it validates the
folder, loads the existing store (missing file means empty dict, corrupt
file raises), lists and processes just that folder, and when the listing
produced any item saves the merge of the existing store with the new
results; with no argument it runs process_all_images, which returns
without saving when no images were listed and otherwise overwrites the
store file with exactly the freshly computed results. -/
def runMain (env : Env) : Option String → FileState → Except RunErr FileState
  | some a, file =>
    if pyLower a = "portfolio" ∨ pyLower a = "rugby" then
      match load_existing file with
      | .error e => .error e
      | .ok existing =>
        if (fetch_folder env.api (pyLower a) env.fuel).isEmpty then .ok file
        else .ok (.stored (dictUnion existing (processImages env.parseDT env.download
          (fetch_folder env.api (pyLower a) env.fuel))))
    else .error .usage
  | none, file =>
    if (fetch_all_images env.api env.fuel).isEmpty then .ok file
    else .ok (.stored (processImages env.parseDT env.download
      (fetch_all_images env.api env.fuel)))

/-! ### Concrete fixtures used to instantiate theorems that carry
hypotheses -/

/-- A decoded image whose every external stage reports failure, the
cheapest concrete image. -/
def imgW : DecodedImage := ⟨none, fun _ => true, fun _ _ => 0, true, 0, true, [], []⟩

/-- A download oracle failing exactly on the url bad. -/
def downloadW : String → Option DecodedImage :=
  fun u => if u = "bad" then none else some imgW

/-- A listing backend: one portfolio page, then one rugby page followed
by a request error on the second rugby request. -/
def apiW : Api := fun folder cursor =>
  if folder = "portfolio" then .ok ⟨[⟨"p1", "up1", some "2020"⟩], none⟩
  else
    match cursor with
    | none => .ok ⟨[⟨"r1", "ur1", none⟩], some "cur"⟩
    | some _ => .error ()

/-- A listing backend that always fails. -/
def apiE : Api := fun _ _ => .error ()

def envW : Env := ⟨apiW, downloadW, fun _ => none, 2⟩

def envE : Env := ⟨apiE, downloadW, fun _ => none, 1⟩

/-- A store entry predating a run. -/
def trOld : TagResult := ⟨"uo", "portfolio", "", [], [], [], [], [], []⟩

def itemA : Item := ⟨"a", "ua", "portfolio", ""⟩
def itemB : Item := ⟨"b", "bad", "portfolio", ""⟩
def itemC : Item := ⟨"c", "uc", "portfolio", ""⟩

/-! ## Theorems -/

/-- C4: for every list of color tags and every saturation value, at or
below the 0.15 threshold the filter returns the list unchanged; above
the threshold it removes exactly the tags matching the achromatic
keyword set case insensitively, except that when every tag matches (so
removal would empty the list) the original unchanged list is returned. -/
theorem filter_bw_tags_spec (color_tags : List String) (saturation : ℚ) :
    (saturation ≤ SATURATION_THRESHOLD → filter_bw_tags color_tags saturation = color_tags) ∧
    (SATURATION_THRESHOLD < saturation → (∀ tag ∈ color_tags, isAchromatic tag) →
      filter_bw_tags color_tags saturation = color_tags) ∧
    (SATURATION_THRESHOLD < saturation → (∃ tag ∈ color_tags, ¬ isAchromatic tag) →
      filter_bw_tags color_tags saturation
        = color_tags.filter (fun tag => decide (¬ isAchromatic tag))) := by
  have hfe : (fun tag => !(bw_keywords.contains (pyLower tag)))
      = (fun tag => decide (¬ isAchromatic tag)) := by
    funext tag
    simp [isAchromatic, List.contains]
  refine ⟨?_, ?_, ?_⟩
  · intro h
    unfold filter_bw_tags
    rw [if_neg (not_lt.mpr h)]
  · intro h hall
    unfold filter_bw_tags
    rw [if_pos h]
    show (if (color_tags.filter (fun tag => !(bw_keywords.contains (pyLower tag)))).isEmpty
          then color_tags
          else color_tags.filter (fun tag => !(bw_keywords.contains (pyLower tag))))
        = color_tags
    rw [hfe]
    have hemp : color_tags.filter (fun tag => decide (¬ isAchromatic tag)) = [] := by
      apply List.filter_eq_nil_iff.mpr
      intro a ha
      simpa using hall a ha
    rw [hemp]
    rfl
  · intro h hex
    unfold filter_bw_tags
    rw [if_pos h]
    show (if (color_tags.filter (fun tag => !(bw_keywords.contains (pyLower tag)))).isEmpty
          then color_tags
          else color_tags.filter (fun tag => !(bw_keywords.contains (pyLower tag))))
        = color_tags.filter (fun tag => decide (¬ isAchromatic tag))
    rw [hfe]
    obtain ⟨tag, htag, hna⟩ := hex
    have hne : color_tags.filter (fun tag => decide (¬ isAchromatic tag)) ≠ [] := by
      intro hc
      rw [List.filter_eq_nil_iff] at hc
      have hca := hc tag htag
      simp at hca
      exact hna hca
    rw [if_neg (by simpa [List.isEmpty_iff] using hne)]

/-- Witness for C4 at a concrete input: with saturation one half, the
achromatic grayscale tag is stripped and the chromatic one kept. -/
theorem filter_bw_tags_spec_witness :
    filter_bw_tags ["grayscale", "red dominant"] (1 / 2) = ["red dominant"] := by
  have h := (filter_bw_tags_spec ["grayscale", "red dominant"] (1 / 2)).2.2
    (by norm_num [SATURATION_THRESHOLD])
    ⟨"red dominant", by simp, by decide⟩
  rw [h]
  decide

/-- C6: timestamp resolution priority: a present DateTimeOriginal entry
is parsed, or passed through raw when parsing fails; only when it is
absent does the DateTime entry get the same treatment; with no usable
entry (or no EXIF at all) the caller supplied listing timestamp is the
result.  The embedded stage is a total function, so no exception can
escape it. -/
theorem photo_date_priority (parseDT : String → Option String)
    (entries : List (String × String)) (created_at : String) :
    resolved_photo_date parseDT none created_at = created_at ∧
    (∀ e, entries.find? (fun x => x.1 == "DateTimeOriginal") = some e →
      resolved_photo_date parseDT (some entries) created_at = (parseDT e.2).getD e.2) ∧
    (entries.find? (fun x => x.1 == "DateTimeOriginal") = none →
      ∀ e, entries.find? (fun x => x.1 == "DateTime") = some e →
        resolved_photo_date parseDT (some entries) created_at = (parseDT e.2).getD e.2) ∧
    (entries.find? (fun x => x.1 == "DateTimeOriginal") = none →
      entries.find? (fun x => x.1 == "DateTime") = none →
        resolved_photo_date parseDT (some entries) created_at = created_at) := by
  refine ⟨rfl, ?_, ?_, ?_⟩
  · intro e he
    simp only [resolved_photo_date, get_photo_date, he, Option.getD_some]
  · intro h1 e he
    simp only [resolved_photo_date, get_photo_date, h1, he, Option.getD_some]
  · intro h1 h2
    simp only [resolved_photo_date, get_photo_date, h1, h2, Option.getD_none]

/-- Witness for C6 at a concrete input: a DateTimeOriginal value the
parser rejects is returned raw. -/
theorem photo_date_priority_witness :
    resolved_photo_date (fun _ => none)
      (some [("DateTimeOriginal", "not a date")]) "fallback" = "not a date" := by
  have h := (photo_date_priority (fun _ => none)
    [("DateTimeOriginal", "not a date")] "fallback").2.1
    ("DateTimeOriginal", "not a date") (by decide)
  simpa using h

/-- C7: listing failures are folder local: whenever the rugby listing
yields one page and then fails on the next request, the full run result
is still the complete portfolio listing followed by exactly the rugby
resources gathered before the error; aborting rugby pagination never
touches the portfolio results. -/
theorem listing_failure_folder_local (api : Api) (fuel : Nat) (rs : List Resource) (c : String)
    (h1 : api "rugby" none = .ok ⟨rs, some c⟩)
    (h2 : api "rugby" (some c) = .error ())
    (hfuel : 2 ≤ fuel) :
    fetch_all_images api fuel =
      fetch_folder api "portfolio" fuel ++ rs.map (fun r => toItem ("rugby", r)) := by
  obtain ⟨n, rfl⟩ : ∃ n, fuel = n + 2 := ⟨fuel - 2, by omega⟩
  have hr : listGo api "rugby" (n + 2) none [] = rs := by
    simp only [listGo, h1, h2, List.nil_append]
  simp [fetch_all_images, fetch_all_raw, folders, fetch_folder, hr, List.map_append]

/-- Witness for C7 at a concrete backend with one portfolio page and a
rugby error on the second request. -/
theorem listing_failure_folder_local_witness :
    fetch_all_images apiW 2 =
      fetch_folder apiW "portfolio" 2
        ++ ([⟨"r1", "ur1", none⟩] : List Resource).map (fun r => toItem ("rugby", r)) :=
  listing_failure_folder_local apiW 2 [⟨"r1", "ur1", none⟩] "cur" rfl rfl (by omega)

lemma content_labels_nodup : CONTENT_LABELS.Nodup := by decide

lemma style_labels_nodup : STYLE_LABELS.Nodup := by decide

lemma lighting_labels_nodup : LIGHTING_LABELS.Nodup := by decide

lemma color_labels_nodup : COLOR_LABELS.Nodup := by decide

lemma getD_of_lt {α : Type} (l : List α) (d : α) {i : Nat} (h : i < l.length) :
    l.getD i d = l[i] := by
  simp [List.getD_eq_getElem?_getD, List.getElem?_eq_getElem, h]

lemma topkIndices_nodup {α : Type} [LinearOrder α] (score : Nat → α) (n k : Nat) :
    (topkIndices score n k).Nodup := by
  have hnd : (List.insertionSort (descRel score) (List.range n)).Nodup :=
    (List.perm_insertionSort (descRel score) (List.range n)).nodup_iff.mpr (List.nodup_range n)
  exact List.Nodup.sublist (List.take_sublist _ _) hnd

lemma topkIndices_lt {α : Type} [LinearOrder α] (score : Nat → α) (n k : Nat) :
    ∀ i ∈ topkIndices score n k, i < n := by
  intro i hi
  have hmem : i ∈ List.insertionSort (descRel score) (List.range n) :=
    List.mem_of_mem_take hi
  rw [List.mem_insertionSort] at hmem
  exact List.mem_range.mp hmem

lemma topkIndices_length {α : Type} [LinearOrder α] (score : Nat → α) (n k : Nat)
    (h : k ≤ n) : (topkIndices score n k).length = k := by
  simp [topkIndices, List.length_take, List.length_insertionSort]
  omega

lemma clip_tags_sound (fail : Bool) (score : Nat → ℚ) (labels : List String) (k : Nat)
    (hnd : labels.Nodup) :
    (get_clip_tags fail score labels k).length ≤ k ∧
    (∀ l ∈ get_clip_tags fail score labels k, l ∈ labels) ∧
    (get_clip_tags fail score labels k).Nodup := by
  unfold get_clip_tags
  by_cases hfail : fail = true
  · simp [hfail]
  · rw [if_neg hfail]
    by_cases hlen : labels.length < k
    · rw [if_pos hlen]
      simp
    · rw [if_neg hlen]
      rw [not_lt] at hlen
      refine ⟨?_, ?_, ?_⟩
      · rw [List.length_map, topkIndices_length _ _ _ hlen]
      · intro l hl
        rw [List.mem_map] at hl
        obtain ⟨i, hi, rfl⟩ := hl
        have hilt := topkIndices_lt score labels.length k i hi
        rw [getD_of_lt _ _ hilt]
        exact List.getElem_mem _
      · apply List.Nodup.map_on ?_ (topkIndices_nodup score labels.length k)
        intro i hi j hj heq
        have hilt := topkIndices_lt score labels.length k i hi
        have hjlt := topkIndices_lt score labels.length k j hj
        rw [getD_of_lt _ _ hilt, getD_of_lt _ _ hjlt] at heq
        exact (hnd.getElem_inj_iff).mp heq

/-- C3: for each of the four taxonomies and any image (any similarity
outcome, including a CLIP failure), the classifier returns at most top_k
labels, every returned label belongs to the taxonomy label list, and no
label appears twice. -/
theorem clip_tags_bounded_subset_nodup (t : LabelTaxonomy) (ht : t ∈ taxonomies)
    (fail : Bool) (score : Nat → ℚ) :
    (get_clip_tags fail score t.labels t.top_k).length ≤ t.top_k ∧
    (∀ l ∈ get_clip_tags fail score t.labels t.top_k, l ∈ t.labels) ∧
    (get_clip_tags fail score t.labels t.top_k).Nodup := by
  apply clip_tags_sound
  simp [taxonomies] at ht
  rcases ht with rfl | rfl | rfl | rfl
  · exact content_labels_nodup
  · exact style_labels_nodup
  · exact lighting_labels_nodup
  · exact color_labels_nodup

/-- Witness for C3 on the color taxonomy with a constant similarity. -/
theorem clip_tags_bounded_subset_nodup_witness :
    (get_clip_tags false (fun _ => 0) COLOR_LABELS COLOR_TAGS_PER_IMAGE).length
        ≤ COLOR_TAGS_PER_IMAGE ∧
    (∀ l ∈ get_clip_tags false (fun _ => 0) COLOR_LABELS COLOR_TAGS_PER_IMAGE,
        l ∈ COLOR_LABELS) ∧
    (get_clip_tags false (fun _ => 0) COLOR_LABELS COLOR_TAGS_PER_IMAGE).Nodup :=
  clip_tags_bounded_subset_nodup ⟨"color", COLOR_LABELS, COLOR_TAGS_PER_IMAGE⟩
    (by decide) false (fun _ => 0)

/-- C10: when the CLIP call does not fail and the label list has at
least top_k entries, exactly top_k labels are returned (not fewer), and
the selected label positions are pairwise distinct. -/
theorem clip_tags_exact_topk (score : Nat → ℚ) (labels : List String) (k : Nat)
    (hk : k ≤ labels.length) :
    (get_clip_tags false score labels k).length = k ∧
    (topkIndices score labels.length k).Nodup := by
  constructor
  · unfold get_clip_tags
    rw [if_neg Bool.false_ne_true, if_neg (not_lt.mpr hk), List.length_map,
      topkIndices_length _ _ _ hk]
  · exact topkIndices_nodup _ _ _

/-- Witness for C10 on a three label list with top_k two. -/
theorem clip_tags_exact_topk_witness :
    (get_clip_tags false (fun _ => 0) ["a", "b", "c"] 2).length = 2 ∧
    (topkIndices (fun _ : Nat => (0 : ℚ)) (["a", "b", "c"] : List String).length 2).Nodup :=
  clip_tags_exact_topk (fun _ => 0) ["a", "b", "c"] 2 (by decide)

lemma sum_map_add_nat {α : Type} (l : List α) (f g : α → Nat) :
    (l.map (fun a => f a + g a)).sum = (l.map f).sum + (l.map g).sum := by
  induction l with
  | nil => simp
  | cons a t ih =>
    simp [ih]
    omega

lemma sum_map_indicator (n x : Nat) (h : x < n) :
    ((List.range n).map (fun v => if v = x then (1 : Nat) else 0)).sum = 1 := by
  induction n with
  | zero => omega
  | succ m ih =>
    rw [List.range_succ, List.map_append, List.sum_append]
    by_cases hx : x = m
    · subst hx
      have h0 : ((List.range x).map (fun v => if v = x then (1 : Nat) else 0)).sum = 0 := by
        apply List.sum_eq_zero
        intro y hy
        rw [List.mem_map] at hy
        obtain ⟨v, hv, rfl⟩ := hy
        have hvx := List.mem_range.mp hv
        simp [Nat.ne_of_lt hvx]
      simp [h0]
    · have hxm : x < m := by omega
      rw [ih hxm]
      simp [Ne.symm hx]

lemma sum_range_count (xs : List Nat) (n : Nat) (h : ∀ x ∈ xs, x < n) :
    ((List.range n).map (fun v => xs.count v)).sum = xs.length := by
  induction xs with
  | nil => simp
  | cons x t ih =>
    have hx : x < n := h x (List.mem_cons_self x t)
    have ht : ∀ y ∈ t, y < n := fun y hy => h y (List.mem_cons_of_mem x hy)
    have hfe : (fun v => (x :: t).count v) = fun v => t.count v + if v = x then 1 else 0 := by
      funext v
      rw [List.count_cons]
      by_cases hvx : v = x
      · subst hvx
        simp
      · simp [hvx, Ne.symm hvx]
    rw [hfe, sum_map_add_nat, ih ht, sum_map_indicator n x hx]
    simp

lemma le_foldr_max (xs : List Nat) : ∀ x ∈ xs, x ≤ xs.foldr max 0 := by
  induction xs with
  | nil => simp
  | cons a t ih =>
    intro x hx
    rcases List.mem_cons.mp hx with rfl | hx2
    · simp only [List.foldr_cons]
      exact le_max_left _ _
    · exact le_trans (ih x hx2) (by simp only [List.foldr_cons]; exact le_max_right _ _)

lemma bincount_sum (xs : List Nat) : (bincount xs).sum = xs.length := by
  unfold bincount
  by_cases h : xs = []
  · simp [h]
  · rw [if_neg h]
    apply sum_range_count
    intro x hx
    have := le_foldr_max xs x hx
    omega

lemma map_getD_range {α : Type} (l : List α) (d : α) :
    (List.range l.length).map (fun i => l.getD i d) = l := by
  apply List.ext_getElem
  · simp
  · intro i h1 h2
    simp only [List.getElem_map, List.getElem_range]
    rw [getD_of_lt _ _ h2]

lemma sum_map_div (l : List ℚ) (d : ℚ) :
    (l.map (fun x => x / d)).sum = l.sum / d := by
  induction l with
  | nil => simp
  | cons a t ih => simp [ih, add_div]

lemma descRel_le {α : Type} [LinearOrder α] (key : Nat → α) {i j : Nat}
    (h : descRel key i j) : key j ≤ key i := by
  rcases h with h | ⟨h, _⟩
  · exact le_of_lt h
  · exact le_of_eq h

lemma palette_main_weights (centers : List (ℚ × ℚ × ℚ)) (assign : List Nat)
    (h : assign ≠ []) :
    ((palette_main centers assign).map PaletteEntry.weight).sum = 1 := by
  unfold palette_main
  rw [List.map_map]
  have hL : (0 : ℚ) < (assign.length : ℚ) := by
    have : assign.length ≠ 0 := fun h0 => h (List.length_eq_zero.mp h0)
    exact_mod_cast Nat.pos_of_ne_zero this
  have hcomp : (PaletteEntry.weight ∘ fun i =>
      (⟨(centers.getD i (0, 0, 0)).1.floor,
        (centers.getD i (0, 0, 0)).2.1.floor,
        (centers.getD i (0, 0, 0)).2.2.floor,
        ((bincount assign).getD i 0 : ℚ) / (assign.length : ℚ)⟩ : PaletteEntry))
      = fun i => (((bincount assign).getD i 0 : ℚ)) / (assign.length : ℚ) := rfl
  rw [hcomp]
  have hperm : List.Perm
      ((List.insertionSort (descRel (fun i => (bincount assign).getD i 0))
        (List.range (bincount assign).length)).map
          (fun i => (((bincount assign).getD i 0 : ℚ)) / (assign.length : ℚ)))
      ((List.range (bincount assign).length).map
          (fun i => (((bincount assign).getD i 0 : ℚ)) / (assign.length : ℚ))) :=
    List.Perm.map _ (List.perm_insertionSort _ _)
  rw [List.Perm.sum_eq hperm]
  have h1 : (List.range (bincount assign).length).map
        (fun i => (((bincount assign).getD i 0 : ℚ)) / (assign.length : ℚ))
      = ((List.range (bincount assign).length).map
          (fun i => (((bincount assign).getD i 0 : ℚ)))).map
          (fun x => x / (assign.length : ℚ)) := by
    rw [List.map_map]
    rfl
  have h2 : (List.range (bincount assign).length).map
        (fun i => (((bincount assign).getD i 0 : ℚ)))
      = ((List.range (bincount assign).length).map
          (fun i => (bincount assign).getD i 0)).map (fun x : Nat => (x : ℚ)) := by
    rw [List.map_map]
    rfl
  rw [h1, sum_map_div, h2, map_getD_range (bincount assign) 0]
  rw [← Nat.cast_list_sum, bincount_sum]
  exact div_self (ne_of_gt hL)

lemma palette_main_sorted (centers : List (ℚ × ℚ × ℚ)) (assign : List Nat) :
    (palette_main centers assign).Pairwise (fun p q => q.weight ≤ p.weight) := by
  unfold palette_main
  have hs : List.Pairwise (descRel (fun i => (bincount assign).getD i 0))
      (List.insertionSort (descRel (fun i => (bincount assign).getD i 0))
        (List.range (bincount assign).length)) :=
    List.sorted_insertionSort _ _
  refine List.Pairwise.map _ ?_ hs
  intro a b hab
  show (((bincount assign).getD b 0 : ℚ)) / (assign.length : ℚ)
      ≤ (((bincount assign).getD a 0 : ℚ)) / (assign.length : ℚ)
  have hk : (bincount assign).getD b 0 ≤ (bincount assign).getD a 0 :=
    descRel_le (fun i => (bincount assign).getD i 0) hab
  have hc : (((bincount assign).getD b 0 : ℚ)) ≤ (((bincount assign).getD a 0 : ℚ)) := by
    exact_mod_cast hk
  rcases Nat.eq_zero_or_pos assign.length with hz | hp
  · simp [hz]
  · have hL : (0 : ℚ) < (assign.length : ℚ) := by exact_mod_cast hp
    exact (div_le_div_iff_of_pos_right hL).mpr hc

/-- C5: every palette the analyzer can return, including the failure
default, has entry weights summing to one (so certainly within the
stated tolerance of one millionth) and is ordered by non increasing
weight, so index zero is the dominant color. -/
theorem palette_weights_sum_one_sorted (fail : Bool) (centers : List (ℚ × ℚ × ℚ))
    (assign : List Nat) :
    |(((get_color_palette fail centers assign).map PaletteEntry.weight).sum) - 1|
        ≤ 1 / 1000000 ∧
    (get_color_palette fail centers assign).Pairwise (fun p q => q.weight ≤ p.weight) := by
  unfold get_color_palette
  by_cases hfail : fail = true
  · rw [if_pos hfail]
    constructor
    · simp [default_palette]
    · simp [default_palette]
  · rw [if_neg hfail]
    by_cases hassign : assign = []
    · rw [if_pos hassign]
      constructor
      · simp [default_palette]
      · simp [default_palette]
    · rw [if_neg hassign]
      constructor
      · rw [palette_main_weights centers assign hassign]
        simp
      · exact palette_main_sorted centers assign

lemma lookupKey_append {β : Type} (l₁ l₂ : List (String × β)) (k : String) :
    lookupKey (l₁ ++ l₂) k = (lookupKey l₁ k).or (lookupKey l₂ k) := by
  induction l₁ with
  | nil => simp [lookupKey]
  | cons e t ih =>
    by_cases he : e.1 = k
    · simp [lookupKey, he]
    · simp [lookupKey, he, ih]

lemma lookupKey_not_mem {β : Type} (d : List (String × β)) (k : String)
    (h : k ∉ d.map Prod.fst) : lookupKey d k = none := by
  induction d with
  | nil => rfl
  | cons e t ih =>
    simp only [List.map_cons, List.mem_cons, not_or] at h
    simp [lookupKey, Ne.symm h.1, ih h.2]

lemma lookupKey_map_replace_ne (d : Store) (k : String) (v : TagResult) (k' : String)
    (h : k' ≠ k) :
    lookupKey (d.map (fun e => if e.1 = k then (k, v) else e)) k' = lookupKey d k' := by
  induction d with
  | nil => rfl
  | cons e t ih =>
    by_cases he : e.1 = k
    · simp [lookupKey, he, Ne.symm h, ih]
    · simp [lookupKey, he, ih]

lemma lookupKey_map_replace_eq (d : Store) (k : String) (v : TagResult)
    (h : (lookupKey d k).isSome) :
    lookupKey (d.map (fun e => if e.1 = k then (k, v) else e)) k = some v := by
  induction d with
  | nil => simp [lookupKey] at h
  | cons e t ih =>
    by_cases he : e.1 = k
    · simp [lookupKey, he]
    · have h2 : (lookupKey t k).isSome := by simpa [lookupKey, he] using h
      simp [lookupKey, he, ih h2]

lemma lookupKey_dictInsert (d : Store) (k : String) (v : TagResult) (k' : String) :
    lookupKey (dictInsert d k v) k' = if k' = k then some v else lookupKey d k' := by
  unfold dictInsert
  by_cases hp : (lookupKey d k).isSome
  · rw [if_pos hp]
    by_cases hk : k' = k
    · subst hk
      rw [if_pos rfl, lookupKey_map_replace_eq d k' v hp]
    · rw [if_neg hk, lookupKey_map_replace_ne d k v k' hk]
  · rw [if_neg hp, lookupKey_append]
    by_cases hk : k' = k
    · subst hk
      have hn : lookupKey d k' = none := Option.not_isSome_iff_eq_none.mp hp
      rw [hn, if_pos rfl]
      simp [lookupKey]
    · rw [if_neg hk]
      simp [lookupKey, Ne.symm hk]

lemma keys_dictInsert_mem (d : Store) (k : String) (v : TagResult)
    (h : (lookupKey d k).isSome) :
    (dictInsert d k v).map Prod.fst = d.map Prod.fst := by
  unfold dictInsert
  rw [if_pos h, List.map_map]
  apply List.map_congr_left
  intro e _
  by_cases hek : e.1 = k
  · simp [hek]
  · simp [hek]

lemma keys_dictInsert_not_mem (d : Store) (k : String) (v : TagResult)
    (h : ¬ (lookupKey d k).isSome) :
    (dictInsert d k v).map Prod.fst = d.map Prod.fst ++ [k] := by
  unfold dictInsert
  rw [if_neg h, List.map_append]
  rfl

lemma dictInsert_length_not_mem (d : Store) (k : String) (v : TagResult)
    (h : ¬ (lookupKey d k).isSome) :
    (dictInsert d k v).length = d.length + 1 := by
  unfold dictInsert
  rw [if_neg h, List.length_append]
  rfl

lemma process_loop_length (parseDT : String → Option String)
    (download : String → Option DecodedImage) :
    ∀ (items : List Item) (acc : Store),
      (items.map Item.public_id).Nodup →
      (∀ it ∈ items, it.public_id ∉ acc.map Prod.fst) →
      (process_loop parseDT download items acc).length
        = acc.length + (items.filter (fun it => (download it.url).isSome)).length := by
  intro items
  induction items with
  | nil =>
    intro acc _ _
    simp [process_loop]
  | cons it rest ih =>
    intro acc hnodup hdisj
    rw [List.map_cons, List.nodup_cons] at hnodup
    obtain ⟨hhead, htail⟩ := hnodup
    cases hdl : download it.url with
    | none =>
      simp only [process_loop, hdl]
      rw [ih acc htail (fun x hx => hdisj x (List.mem_cons_of_mem it hx))]
      simp [List.filter_cons, hdl]
    | some img =>
      have hk : it.public_id ∉ acc.map Prod.fst := hdisj it (List.mem_cons_self it rest)
      have hnone : lookupKey acc it.public_id = none := lookupKey_not_mem acc _ hk
      have hkn : ¬ (lookupKey acc it.public_id).isSome := by simp [hnone]
      simp only [process_loop, hdl]
      rw [ih (dictInsert acc it.public_id (process_one parseDT img it)) htail ?_]
      · rw [dictInsert_length_not_mem _ _ _ hkn]
        simp [List.filter_cons, hdl]
        omega
      · intro x hx
        rw [keys_dictInsert_not_mem _ _ _ hkn, List.mem_append]
        rintro (hmem | hmem)
        · exact hdisj x (List.mem_cons_of_mem it hx) hmem
        · simp only [List.mem_singleton] at hmem
          exact hhead (List.mem_map.mpr ⟨x, hx, hmem⟩)

/-- C8: a download failure for one asset skips exactly that asset: for
any item list with pairwise distinct public ids in which one download
fails and all others succeed, the resulting store has exactly one entry
fewer than the item count.  The embedded loop is total, so no exception
crosses the per asset boundary. -/
theorem download_failure_skips_one (parseDT : String → Option String)
    (download : String → Option DecodedImage) (pre post : List Item) (bad : Item)
    (hnodup : ((pre ++ bad :: post).map Item.public_id).Nodup)
    (hbad : download bad.url = none)
    (hpre : ∀ it ∈ pre, (download it.url).isSome)
    (hpost : ∀ it ∈ post, (download it.url).isSome) :
    (processImages parseDT download (pre ++ bad :: post)).length
      = (pre ++ bad :: post).length - 1 := by
  unfold processImages
  rw [process_loop_length parseDT download (pre ++ bad :: post) [] hnodup (by simp)]
  rw [List.filter_append]
  have h1 : pre.filter (fun it => (download it.url).isSome) = pre :=
    List.filter_eq_self.mpr hpre
  have h2 : (bad :: post).filter (fun it => (download it.url).isSome)
      = post.filter (fun it => (download it.url).isSome) := by
    simp [List.filter_cons, hbad]
  have h3 : post.filter (fun it => (download it.url).isSome) = post :=
    List.filter_eq_self.mpr hpost
  rw [h1, h2, h3]
  simp [List.length_append]

/-- Witness for C8: three items of which the middle one has the failing
url; the resulting store has two entries. -/
theorem download_failure_skips_one_witness :
    (processImages (fun _ => none) downloadW ([itemA] ++ itemB :: [itemC])).length
      = ([itemA] ++ itemB :: [itemC]).length - 1 :=
  download_failure_skips_one (fun _ => none) downloadW [itemA] [itemC] itemB
    (by decide) rfl (by decide) (by decide)

lemma lookupKey_isSome_of_mem {β : Type} (d : List (String × β)) (k : String)
    (h : k ∈ d.map Prod.fst) : (lookupKey d k).isSome := by
  induction d with
  | nil => simp at h
  | cons e t ih =>
    by_cases he : e.1 = k
    · simp [lookupKey, he]
    · simp only [List.map_cons, List.mem_cons] at h
      rcases h with h | h
      · exact absurd h.symm he
      · simp [lookupKey, he, ih h]

lemma keys_process_loop_nodup (parseDT : String → Option String)
    (download : String → Option DecodedImage) :
    ∀ (items : List Item) (acc : Store), (acc.map Prod.fst).Nodup →
      ((process_loop parseDT download items acc).map Prod.fst).Nodup := by
  intro items
  induction items with
  | nil =>
    intro acc h
    simpa [process_loop] using h
  | cons it rest ih =>
    intro acc hacc
    cases hdl : download it.url with
    | none =>
      simp only [process_loop, hdl]
      exact ih acc hacc
    | some img =>
      simp only [process_loop, hdl]
      apply ih
      by_cases hp : (lookupKey acc it.public_id).isSome
      · rw [keys_dictInsert_mem _ _ _ hp]
        exact hacc
      · rw [keys_dictInsert_not_mem _ _ _ hp]
        have hnm : it.public_id ∉ acc.map Prod.fst :=
          fun hmem => hp (lookupKey_isSome_of_mem acc _ hmem)
        apply List.Nodup.append hacc (List.nodup_singleton _)
        intro x hx
        simp only [List.mem_singleton]
        rintro rfl
        exact hnm hx

lemma processImages_keys_nodup (parseDT : String → Option String)
    (download : String → Option DecodedImage) (items : List Item) :
    ((processImages parseDT download items).map Prod.fst).Nodup :=
  keys_process_loop_nodup parseDT download items [] (by simp)

lemma lookupKey_dictUnion (b : Store) : ∀ (a : Store), (b.map Prod.fst).Nodup →
    ∀ k, lookupKey (dictUnion a b) k = (lookupKey b k).or (lookupKey a k) := by
  induction b with
  | nil =>
    intro a _ k
    simp [dictUnion, lookupKey]
  | cons e t ih =>
    intro a hb k
    rw [List.map_cons, List.nodup_cons] at hb
    obtain ⟨hhead, htail⟩ := hb
    have ih2 := ih (dictInsert a e.1 e.2) htail k
    unfold dictUnion at ih2 ⊢
    simp only [List.foldl_cons]
    rw [ih2, lookupKey_dictInsert]
    by_cases hk : k = e.1
    · subst hk
      rw [lookupKey_not_mem t _ hhead]
      simp [lookupKey]
    · simp [lookupKey, hk, Ne.symm hk]

/-- C1: an incremental run over a stored prior mapping persists exactly
the python dict merge of the prior store with the freshly computed
folder results: every key of the new results maps to its new value, and
every other key keeps its prior binding. -/
theorem incremental_merge (env : Env) (s : Store) (f : String)
    (hf : f = "portfolio" ∨ f = "rugby") :
    ∃ m : Store, runMain env (some f) (.stored s) = .ok (.stored m) ∧
      (∀ k v, lookupKey (processImages env.parseDT env.download
          (fetch_folder env.api f env.fuel)) k = some v → lookupKey m k = some v) ∧
      (∀ k, lookupKey (processImages env.parseDT env.download
          (fetch_folder env.api f env.fuel)) k = none →
        lookupKey m k = lookupKey s k) := by
  have hlow : pyLower f = f := by rcases hf with rfl | rfl <;> decide
  simp only [runMain]
  rw [hlow, if_pos hf]
  simp only [load_existing]
  by_cases hemp : (fetch_folder env.api f env.fuel).isEmpty
  · rw [if_pos hemp]
    refine ⟨s, rfl, ?_, ?_⟩
    · intro k v hkv
      rw [List.isEmpty_iff] at hemp
      rw [hemp] at hkv
      simp [processImages, process_loop, lookupKey] at hkv
    · intro k _
      rfl
  · rw [if_neg hemp]
    refine ⟨_, rfl, ?_, ?_⟩
    · intro k v hkv
      rw [lookupKey_dictUnion _ s (processImages_keys_nodup _ _ _) k, hkv]
      rfl
    · intro k hk
      rw [lookupKey_dictUnion _ s (processImages_keys_nodup _ _ _) k, hk]
      rfl

/-- Witness for C1 on a concrete environment and a one entry prior
store. -/
theorem incremental_merge_witness :
    ∃ m : Store, runMain envW (some "portfolio") (.stored [("old", trOld)])
        = .ok (.stored m) ∧
      (∀ k v, lookupKey (processImages envW.parseDT envW.download
          (fetch_folder envW.api "portfolio" envW.fuel)) k = some v →
        lookupKey m k = some v) ∧
      (∀ k, lookupKey (processImages envW.parseDT envW.download
          (fetch_folder envW.api "portfolio" envW.fuel)) k = none →
        lookupKey m k = lookupKey [("old", trOld)] k) :=
  incremental_merge envW [("old", trOld)] "portfolio" (Or.inl rfl)

/-- Counterexample for C2: the claim says a corrupt store file is
treated as an empty mapping and is never fatal, but the code passes the
file to json.load with no exception handling, so the incremental run
aborts with an uncaught exception. -/
theorem corrupt_store_fatal_counterexample :
    runMain envW (some "portfolio") .corrupt = .error .exn := rfl

/-- C2 amended: an absent store file is loaded as the empty mapping and
the run proceeds (persisting the merge of the empty store with the new
results); a store file that exists but fails to parse raises an
uncaught exception and aborts the run. -/
theorem store_load_amended (env : Env) (f : String)
    (hf : f = "portfolio" ∨ f = "rugby") :
    (¬ (fetch_folder env.api f env.fuel).isEmpty →
      runMain env (some f) .absent
        = .ok (.stored (dictUnion [] (processImages env.parseDT env.download
            (fetch_folder env.api f env.fuel))))) ∧
    runMain env (some f) .corrupt = .error .exn := by
  have hlow : pyLower f = f := by rcases hf with rfl | rfl <;> decide
  constructor
  · intro hne
    simp only [runMain]
    rw [hlow, if_pos hf]
    simp only [load_existing]
    rw [if_neg hne]
  · simp only [runMain]
    rw [hlow, if_pos hf]
    simp only [load_existing]

/-- Witness for the amended C2 on a concrete environment: the absent
file case saves the merge with the empty store, the corrupt case
aborts. -/
theorem store_load_amended_witness :
    runMain envW (some "portfolio") .absent
        = .ok (.stored (dictUnion [] (processImages envW.parseDT envW.download
            (fetch_folder envW.api "portfolio" envW.fuel)))) ∧
    runMain envW (some "portfolio") .corrupt = .error .exn :=
  ⟨(store_load_amended envW "portfolio" (Or.inl rfl)).1 (by decide),
   (store_load_amended envW "portfolio" (Or.inl rfl)).2⟩

/-- Counterexample for C9: a full run that lists no images at all (here
every listing request fails) returns before saving, leaving the prior
store untouched instead of overwriting it with the (empty) computed
result mapping. -/
theorem full_run_no_overwrite_counterexample :
    runMain envE none (.stored [("A", trOld)]) = .ok (.stored [("A", trOld)]) ∧
    processImages envE.parseDT envE.download (fetch_all_images envE.api envE.fuel) = [] ∧
    ([("A", trOld)] : Store) ≠ ([] : Store) :=
  ⟨rfl, rfl, by simp⟩

/-- C9 amended: whenever the full run lists at least one image, the
durable store is overwritten with exactly the freshly computed result
mapping, carrying over nothing from any prior store contents; when the
listing comes back empty the run returns early and the store file is
left unchanged. -/
theorem full_run_overwrites (env : Env) (file : FileState)
    (h : ¬ (fetch_all_images env.api env.fuel).isEmpty) :
    runMain env none file
      = .ok (.stored (processImages env.parseDT env.download
          (fetch_all_images env.api env.fuel))) := by
  simp only [runMain]
  rw [if_neg h]

/-- Witness for the amended C9 on a concrete environment with a
nonempty listing. -/
theorem full_run_overwrites_witness :
    runMain envW none .absent
      = .ok (.stored (processImages envW.parseDT envW.download
          (fetch_all_images envW.api envW.fuel))) :=
  full_run_overwrites envW .absent (by decide)

end ClassifyCloudinary
